import Mathlib

/-!
Verification of the sim-gui simulator lifecycle orchestrator.

This file gives a shallow embedding of the Go source of the repository:
the JSON metadata store (`pkg/server/store/json/json_store.go`), the API
handlers (`pkg/server/api/server.go`, `workspace.go`), the docker client
helpers (`pkg/docker/run.go`, the image helpers, the docker cleaner), the
image build worker pool, and the core cleaner, together with theorems about
their behaviour.
-/

namespace SimGui

/-- Go `strings.Contains(s, pat)`: `pat` occurs as a substring of `s`. -/
def strContains (s pat : String) : Bool :=
  decide (pat.toList <:+: s.toList)

/-! ## Data model (`pkg/server/model/types.go`) -/

/-- A version record inside a workspace (`model.Version`).  Timestamps are
modelled as natural numbers. -/
structure Version where
  id : String
  name : String
  createdAt : Nat
  bundlePath : String
  supportBundleName : String
  ready : Bool
  deriving Repr, DecidableEq

/-- A workspace record (`model.Workspace`). -/
structure Workspace where
  name : String
  displayName : String
  createdAt : Nat
  versions : List Version
  deriving Repr, DecidableEq

/-- The in-memory map of the JSON store (`JSONStore.data`), modelled as an
association list keyed by workspace name.  A well-formed store (anything
built by the store operations) has pairwise-distinct keys. -/
abbrev Store := List (String × Workspace)

/-- Errors returned by the store layer: `os.ErrExist` and `os.ErrNotExist`. -/
inductive StoreError where
  | errExist
  | errNotExist
  deriving Repr, DecidableEq

/-- Map lookup on the store (`s.data[name]`). -/
def storeFind (s : Store) (name : String) : Option Workspace :=
  match s with
  | [] => none
  | (k, w) :: rest => if k = name then some w else storeFind rest name

/-- `JSONStore.CreateWorkspace`: fails with `os.ErrExist` when the name is
already present, otherwise inserts the record (and persists).  The returned
store is the state after the call. -/
def CreateWorkspace (s : Store) (ws : Workspace) : Except StoreError Store :=
  match storeFind s ws.name with
  | some _ => .error .errExist
  | none => .ok (s ++ [(ws.name, ws)])

/-- `JSONStore.GetWorkspace`: fails with `os.ErrNotExist` when absent. -/
def GetWorkspace (s : Store) (name : String) : Except StoreError Workspace :=
  match storeFind s name with
  | some ws => .ok ws
  | none => .error .errNotExist

/-- Replace the (first) binding of key `k` with workspace `w`. -/
def storeReplace (s : Store) (k : String) (w : Workspace) : Store :=
  match s with
  | [] => []
  | (k', w') :: rest =>
    if k' = k then (k', w) :: rest else (k', w') :: storeReplace rest k w

/-- `JSONStore.UpdateWorkspace`: whole-record replace keyed by `ws.name`;
fails with `os.ErrNotExist` when the name is absent. -/
def UpdateWorkspace (s : Store) (ws : Workspace) : Except StoreError Store :=
  match storeFind s ws.name with
  | none => .error .errNotExist
  | some _ => .ok (storeReplace s ws.name ws)

/-- `JSONStore.ListWorkspaces`: all records (map iteration modelled in
binding order). -/
def ListWorkspaces (s : Store) : List Workspace :=
  s.map (·.2)

/-- `JSONStore.DeleteWorkspace`: removes the record, fails when absent. -/
def DeleteWorkspace (s : Store) (name : String) : Except StoreError Store :=
  match storeFind s name with
  | none => .error .errNotExist
  | some _ => .ok (s.filter (fun p => ¬ p.1 = name))

/-! ## API server layer (`pkg/server/api/server.go`, `workspace.go`) -/

/-- Errors surfaced by the HTTP handlers, keyed by the status code used. -/
inductive ApiError where
  | badRequest
  | notFound
  | conflict
  | internal
  deriving Repr, DecidableEq

/-- The derived instance identity `fmt.Sprintf("%s-%s", name, versionID)`. -/
def instanceName (workspaceName versionID : String) : String :=
  workspaceName ++ "-" ++ versionID

/-- The workspace record built by `handleCreateWorkspace` (workspace.go,
lines 41-46): fresh name, display name equal to the name, empty version
list. -/
def mkNewWorkspace (name : String) (now : Nat) : Workspace :=
  { name := name, displayName := name, createdAt := now, versions := [] }

/-- Go `strings.TrimSpace`: drop leading and trailing whitespace. -/
def goTrimSpace (s : String) : String :=
  ⟨((s.toList.dropWhile Char.isWhitespace).reverse.dropWhile Char.isWhitespace).reverse⟩

/-- `handleCreateWorkspace`: rejects a blank name, builds the fresh record
and stores it; `os.ErrExist` from the store is mapped to Conflict (409).
Returns the store after the call together with the outcome. -/
def handleCreateWorkspace (s : Store) (reqName : String) (now : Nat) :
    Store × Except ApiError Workspace :=
  if goTrimSpace reqName = "" then (s, .error .badRequest)
  else
    let ws := mkNewWorkspace reqName now
    match CreateWorkspace s ws with
    | .error .errExist => (s, .error .conflict)
    | .error _ => (s, .error .internal)
    | .ok s' => (s', .ok ws)

/-- The version ID computed by `handleUploadVersion` (server.go line 132):
`fmt.Sprintf("v%d", len(ws.Versions)+1)`. -/
def uploadVersionID (ws : Workspace) : String :=
  "v" ++ toString (ws.versions.length + 1)

/-- The version record built by `handleUploadVersion` (server.go lines
211-217): id and name both the fresh version ID, `Ready` zero-valued
(false). -/
def mkUploadedVersion (versionID bundlePath bundleName : String) (now : Nat) : Version :=
  { id := versionID, name := versionID, createdAt := now,
    bundlePath := bundlePath, supportBundleName := bundleName, ready := false }

/-- `handleUploadVersion`, store-relevant part: get the workspace, compute
the version ID from the current version count, append the new version and
update the store.  File I/O (saving and extracting the bundle) is outside
the store model.  Returns the store after the call and the assigned ID. -/
def handleUploadVersion (s : Store) (wsName bundlePath bundleName : String) (now : Nat) :
    Store × Except ApiError String :=
  match GetWorkspace s wsName with
  | .error _ => (s, .error .notFound)
  | .ok ws =>
    let versionID := uploadVersionID ws
    let v := mkUploadedVersion versionID bundlePath bundleName now
    match UpdateWorkspace s { ws with versions := ws.versions ++ [v] } with
    | .error _ => (s, .error .internal)
    | .ok s' => (s', .ok versionID)

/-- `handleDeleteVersion`, store-relevant part: find the index of the
version, splice it out of the slice and update the store.  (File and
container/image removal are best-effort side effects outside the store
model.)  Returns the store after the call. -/
def handleDeleteVersion (s : Store) (wsName versionID : String) :
    Store × Except ApiError Unit :=
  match GetWorkspace s wsName with
  | .error _ => (s, .error .notFound)
  | .ok ws =>
    match ws.versions.findIdx? (fun v => v.id = versionID) with
    | none => (s, .error .notFound)
    | some i =>
      match UpdateWorkspace s { ws with versions := ws.versions.eraseIdx i } with
      | .error _ => (s, .error .internal)
      | .ok s' => (s', .ok ())

/-- The loop body of `markVersionReady` (server.go lines 508-517): walk the
version slice, on the first version whose ID matches set `Ready` when it was
false, and report whether anything was updated (`break` ends the loop at the
first match either way). -/
def markReadyLoop : List Version → String → List Version × Bool
  | [], _ => ([], false)
  | v :: rest, versionID =>
    if v.id = versionID then
      if ¬ v.ready then ({ v with ready := true } :: rest, true)
      else (v :: rest, false)
    else
      let (rest', updated) := markReadyLoop rest versionID
      (v :: rest', updated)

/-- `markVersionReady` (server.go lines 501-524): fetch the workspace (a
failure is only logged), flip the first matching version's `Ready` flag
upward, and update the store only when something changed (an update failure
is only logged).  The function has no return value; the model returns the
store after the call. -/
def markVersionReady (s : Store) (workspaceName versionID : String) : Store :=
  match GetWorkspace s workspaceName with
  | .error _ => s
  | .ok ws =>
    let (versions', updated) := markReadyLoop ws.versions versionID
    if updated then
      match UpdateWorkspace s { ws with versions := versions' } with
      | .ok s' => s'
      | .error _ => s
    else s

/-- The readiness sentinel substring (server.go line 528). -/
def readySentinel : String := "All resources loaded successfully"

/-- `WaitForLogMessage` (pkg/docker/run.go lines 222-247), scanning part:
the follow-mode log stream is a finite list of lines followed by the value
`scanner.Err()` reports once the stream ends (`none` for a clean EOF).  The
function returns `none` (Go `nil`) as soon as a line contains `message`;
when the stream ends without a match it returns `scanner.Err()` — which is
also `none` for a clean EOF. -/
def WaitForLogMessage (lines : List String) (streamErr : Option String)
    (message : String) : Option String :=
  match lines with
  | [] => streamErr
  | line :: rest =>
    if strContains line message then none
    else WaitForLogMessage rest streamErr message

/-- `monitorReadyState` (server.go lines 526-534): the spawned goroutine
runs `WaitForLogMessage` against the instance's log stream and calls
`markVersionReady` exactly when it returned `nil`; an error is only logged.
The model returns the store once the monitor has terminated. -/
def monitorReadyState (s : Store) (workspaceName versionID : String)
    (lines : List String) (streamErr : Option String) : Store :=
  match WaitForLogMessage lines streamErr readySentinel with
  | none => markVersionReady s workspaceName versionID
  | some _ => s

/-! ## Container runtime model (`pkg/docker/run.go` and the image helpers) -/

/-- A container known to the daemon: docker-assigned ID, the name it was
created with, and whether its state is `"running"`. -/
structure ContainerR where
  cid : String
  cname : String
  running : Bool
  deriving Repr, DecidableEq

/-- An image known to the daemon, identified by ID and reference tag. -/
structure ImageR where
  iid : String
  reference : String
  deriving Repr, DecidableEq

/-- The image tag used for an instance:
`fmt.Sprintf("%s:%s", simCliPrefix, instanceName)` with
`simCliPrefix = "sim-cli-managed"`. -/
def imageRef (inst : String) : String :=
  "sim-cli-managed:" ++ inst

/-- The daemon-side state the orchestrator observes and mutates, plus an
injectable failure of the `ImageList` call (the only daemon failure a claim
depends on). -/
structure Runtime where
  containers : List ContainerR
  images : List ImageR
  imageListErr : Option String
  deriving Repr, DecidableEq

/-- `FindRunningContainer`: `ContainerList` filtered by name, without
`All`, so only running containers are returned. -/
def FindRunningContainer (r : Runtime) (inst : String) : List ContainerR :=
  r.containers.filter (fun c => c.cname = inst ∧ c.running)

/-- `FindContainer`: `ContainerList` with `All: true`, running or
stopped. -/
def FindContainer (r : Runtime) (inst : String) : List ContainerR :=
  r.containers.filter (fun c => c.cname = inst)

/-- `StopContainer` (run.go lines 74-87): list the running containers
matching the name and stop (SIGKILL) each one.  Nothing is removed and no
image is touched. -/
def StopContainer (r : Runtime) (inst : String) : Runtime :=
  { r with containers := r.containers.map (fun c =>
      if c.cname = inst ∧ c.running then { c with running := false } else c) }

/-- `RemoveContainer` (run.go lines 194-220): list all containers matching
the name (running or stopped), stop the running ones, then force-remove
every match. -/
def RemoveContainer (r : Runtime) (inst : String) : Runtime :=
  { r with containers := r.containers.filter (fun c => ¬ c.cname = inst) }

/-- `FindImages`: `ImageList` filtered by the instance's reference tag; the
call itself fails when the injected listing error is set. -/
def FindImages (r : Runtime) (inst : String) : Except String (List ImageR) :=
  match r.imageListErr with
  | some e => .error e
  | none => .ok (r.images.filter (fun i => i.reference = imageRef inst))

/-- `RemoveImages` (the docker image helper, lines 37-56): when `FindImages`
fails the error is discarded and the function returns `nil` without removing
anything; otherwise each listed image is removed. -/
def RemoveImages (r : Runtime) (inst : String) : Runtime × Option String :=
  match FindImages r inst with
  | .error _ => (r, none)
  | .ok _ =>
    ({ r with images := r.images.filter (fun i => ¬ i.reference = imageRef inst) },
     none)

/-- `docker.Cleaner.CleanInstance` (pkg/docker cleaner, lines 19-37):
stop the container if running, remove all matching containers, remove the
instance's images; each step's error would be wrapped and returned. -/
def CleanInstance (r : Runtime) (inst : String) : Runtime × Option String :=
  let r1 := StopContainer r inst
  let r2 := RemoveContainer r1 inst
  let (r3, imgErr) := RemoveImages r2 inst
  match imgErr with
  | some e => (r3, some ("failed to remove images: " ++ e))
  | none => (r3, none)

/-- `handleStopSimulator` (server.go lines 350-361): derive the instance
name and call `StopContainer`; the metadata store is not consulted or
written. -/
def handleStopSimulator (s : Store) (r : Runtime) (wsName versionID : String) :
    Store × Runtime :=
  (s, StopContainer r (instanceName wsName versionID))

/-! ## Image build worker pool (`ImageBuildWorker`) -/

/-- A build request (`BuildRequest`), minus its single-use result
channel. -/
structure BuildRequest where
  reqInstanceName : String
  bundlePath : String
  baseImage : String
  deriving Repr, DecidableEq

/-- The state of the worker pool that submission and shutdown touch: the
shutdown flag, the shared-context cancellation, and the buffered job
queue. -/
structure ImageBuildWorker where
  isShutdown : Bool
  ctxCancelled : Bool
  jobQueue : List BuildRequest
  deriving Repr, DecidableEq

/-- Outcome of `SubmitBuildRequest` from the submitter's point of view. -/
inductive SubmitOutcome where
  /-- Returned immediately with the error `"worker is shutdown"`; nothing
  was enqueued. -/
  | rejectedShutdown
  /-- Returned with the error `"worker context cancelled"` from the
  `select`; nothing was enqueued. -/
  | rejectedCancelled
  /-- The request was placed on the job queue and the caller blocks on the
  result channel until a worker finishes the build. -/
  | enqueued
  deriving Repr, DecidableEq

/-- The Go error message `SubmitBuildRequest` returns for each outcome
(`none` when the request was admitted and the caller waits for the build
result instead). -/
def SubmitOutcome.submissionError : SubmitOutcome → Option String
  | .rejectedShutdown => some "worker is shutdown"
  | .rejectedCancelled => some "worker context cancelled"
  | .enqueued => none

/-- `SubmitBuildRequest` (lines 120-151), up to the blocking wait: the
shutdown flag is checked first and causes an immediate error return; then
the `select` either enqueues the request or fails when the shared context
is cancelled (the model resolves the race in favour of cancellation, which
is the only case reachable after `Shutdown`). -/
def SubmitBuildRequest (w : ImageBuildWorker) (req : BuildRequest) :
    ImageBuildWorker × SubmitOutcome :=
  if w.isShutdown then (w, .rejectedShutdown)
  else if w.ctxCancelled then (w, .rejectedCancelled)
  else ({ w with jobQueue := w.jobQueue ++ [req] }, .enqueued)

/-- `Shutdown` (lines 153-163): set the shutdown flag under the lock, cancel
the shared context and wait for the workers to exit. -/
def Shutdown (w : ImageBuildWorker) : ImageBuildWorker :=
  { w with isShutdown := true, ctxCancelled := true }

/-- Submit a whole sequence of requests one after another, collecting each
call's outcome. -/
def submitAll (w : ImageBuildWorker) : List BuildRequest →
    ImageBuildWorker × List SubmitOutcome
  | [] => (w, [])
  | req :: rest =>
    let (w', o) := SubmitBuildRequest w req
    let (w'', os) := submitAll w' rest
    (w'', o :: os)

/-! ## Core cleaner (`pkg/core`, the store-aware cleaner)

The docker client the cleaner drives is the external Runtime Adapter; for
the aggregation claims its only observable behaviour is whether each call
fails, so its three calls are modelled by per-instance error oracles (the
daemon state itself is the `Runtime` model above). -/

/-- The outcome surface of the docker client calls `CleanVersion` makes,
per instance name: an injected error or success. -/
structure DockerOps where
  stopErr : String → Option String
  removeErr : String → Option String
  removeImagesErr : String → Option String

/-- Whether the docker part of cleaning instance `inst` fails under the
oracle `d` (one of the three calls errors). -/
def dockerCleanFails (d : DockerOps) (inst : String) : Bool :=
  (d.stopErr inst).isSome || (d.removeErr inst).isSome ||
    (d.removeImagesErr inst).isSome

/-- `core.CleanVersionResult`: per-version outcome `{VersionID, Error}`. -/
structure CleanVersionResult where
  versionID : String
  cleanError : Option String
  deriving Repr, DecidableEq

/-- The loop body of the core `resetVersionReadyState`: walk the version
slice and on the first version whose ID matches *and* whose flag is set,
clear it and stop; report whether anything changed. -/
def resetReadyLoop : List Version → String → List Version × Bool
  | [], _ => ([], false)
  | v :: rest, versionID =>
    if v.id = versionID ∧ v.ready then ({ v with ready := false } :: rest, true)
    else
      let (rest', updated) := resetReadyLoop rest versionID
      (v :: rest', updated)

/-- `core.Cleaner.resetVersionReadyState`: fetch the workspace, clear the
first matching set flag, update the store only when something changed;
store errors are returned to the caller. -/
def resetVersionReadyState (s : Store) (workspaceName versionID : String) :
    Store × Option StoreError :=
  match GetWorkspace s workspaceName with
  | .error e => (s, some e)
  | .ok ws =>
    let (versions', updated) := resetReadyLoop ws.versions versionID
    if updated then
      match UpdateWorkspace s { ws with versions := versions' } with
      | .ok s' => (s', none)
      | .error e => (s, some e)
    else (s, none)

/-- `core.Cleaner.CleanVersion`: stop the container, remove all matching
containers, remove the images, then reset the version's ready state; the
first failing step's error is wrapped and returned. -/
def CleanVersion (d : DockerOps) (s : Store) (workspaceName versionID : String) :
    Store × Option String :=
  let inst := instanceName workspaceName versionID
  match d.stopErr inst with
  | some e => (s, some ("failed to stop container: " ++ e))
  | none =>
    match d.removeErr inst with
    | some e => (s, some ("failed to remove containers: " ++ e))
    | none =>
      match d.removeImagesErr inst with
      | some e => (s, some ("failed to remove images: " ++ e))
      | none =>
        match resetVersionReadyState s workspaceName versionID with
        | (s', some _) => (s', some "failed to reset ready state")
        | (s', none) => (s', none)

/-- The per-version loop of `CleanAllVersionsInWorkspace`: clean every
version of the snapshot in order, collecting one result per version and
never aborting on a failure. -/
def cleanVersionsLoop (d : DockerOps) (workspaceName : String) :
    Store → List Version → Store × List CleanVersionResult
  | s, [] => (s, [])
  | s, v :: rest =>
    let (s', e) := CleanVersion d s workspaceName v.id
    let (s'', res) := cleanVersionsLoop d workspaceName s' rest
    (s'', { versionID := v.id, cleanError := e } :: res)

/-- `core.Cleaner.CleanAllVersionsInWorkspace`: fetch the workspace (a
lookup failure yields the single synthetic result `{"workspace", err}`),
then clean each of its versions. -/
def CleanAllVersionsInWorkspace (d : DockerOps) (s : Store) (workspaceName : String) :
    Store × List CleanVersionResult :=
  match GetWorkspace s workspaceName with
  | .error _ =>
    (s, [{ versionID := "workspace", cleanError := some "file does not exist" }])
  | .ok ws => cleanVersionsLoop d workspaceName s ws.versions

/-- The per-workspace loop of `CleanAllWorkspaces`, concatenating each
workspace's results. -/
def cleanWorkspacesLoop (d : DockerOps) :
    Store → List Workspace → Store × List CleanVersionResult
  | s, [] => (s, [])
  | s, ws :: rest =>
    let (s', res) := CleanAllVersionsInWorkspace d s ws.name
    let (s'', res') := cleanWorkspacesLoop d s' rest
    (s'', res ++ res')

/-- `core.Cleaner.CleanAllWorkspaces`: list all workspaces once, then clean
every version of every workspace, aggregating the per-version results. -/
def CleanAllWorkspaces (d : DockerOps) (s : Store) : Store × List CleanVersionResult :=
  cleanWorkspacesLoop d s (ListWorkspaces s)

/-- `core.FormatCleanResults`: one formatted message per result that
carries an error. -/
def FormatCleanResults (results : List CleanVersionResult) : List String :=
  results.filterMap (fun r =>
    r.cleanError.map (fun e => "Version " ++ r.versionID ++ ": " ++ e))

/-! ## Observation helpers and harnesses -/

/-- Read a version's `Ready` flag out of the store (the value
`handleGetSimulatorStatus` would report). -/
def versionReady (s : Store) (workspaceName versionID : String) : Option Bool :=
  match GetWorkspace s workspaceName with
  | .error _ => none
  | .ok ws => (ws.versions.find? (fun v => v.id = versionID)).map (·.ready)

/-- The IDs of a version slice, in order. -/
def versionIDs (l : List Version) : List String := l.map (·.id)

/-- A store is well formed when every binding's record carries the binding
key as its name — every store the handlers build satisfies this. -/
def wfStore (s : Store) : Prop := ∀ p ∈ s, p.2.name = p.1

/-- The identity-relevant shape of a store: binding key, record name and
version IDs of every entry. -/
def shape (s : Store) : List (String × String × List String) :=
  s.map (fun p => (p.1, p.2.name, versionIDs p.2.versions))

/-- Run `n` consecutive `handleUploadVersion` calls against one workspace,
recording for each successful call the version count the handler saw plus
one (the number it formats into the ID) together with the assigned ID. -/
def uploadsRun (wsName : String) : Store → Nat → Store × List (Nat × String)
  | s, 0 => (s, [])
  | s, n + 1 =>
    match GetWorkspace s wsName with
    | .error _ => (s, [])
    | .ok ws =>
      match handleUploadVersion s wsName "/b" "b.zip" 0 with
      | (s', .ok vid) =>
        let (s'', rest) := uploadsRun wsName s' n
        (s'', (ws.versions.length + 1, vid) :: rest)
      | (_, .error _) => (s, [])

/-! ## Concrete fixtures used by witnesses and counterexamples -/

/-- A runtime whose image listing is failing, used to witness C10. -/
def failingListRuntime : Runtime :=
  { containers := [{ cid := "c1", cname := "acme-v1", running := true }],
    images := [{ iid := "i1", reference := imageRef "acme-v1" }],
    imageListErr := some "daemon unavailable" }

/-- Fixture for the C5 witness: one matching running container, one
unrelated container, one image, and a workspace whose version is ready. -/
def stopDemoRuntime : Runtime :=
  { containers := [{ cid := "c1", cname := "acme-v1", running := true },
                   { cid := "c2", cname := "beta-v2", running := true }],
    images := [{ iid := "i1", reference := imageRef "acme-v1" }],
    imageListErr := none }

/-- Fixture store for the C5 witness. -/
def stopDemoStore : Store :=
  [("acme", { name := "acme", displayName := "acme", createdAt := 0,
              versions := [{ id := "v1", name := "v1", createdAt := 0,
                             bundlePath := "/b", supportBundleName := "b.zip",
                             ready := true }] })]

/-- Fixture store for the C6 and C8 witnesses: two workspaces, one with a
not-ready version. -/
def demoStore : Store :=
  [("acme", { name := "acme", displayName := "acme", createdAt := 0,
              versions := [{ id := "v1", name := "v1", createdAt := 0,
                             bundlePath := "/b", supportBundleName := "b.zip",
                             ready := false }] }),
   ("beta", { name := "beta", displayName := "beta", createdAt := 0, versions := [] })]

/-- Fixture for the C7 witness: a healthy daemon holding only containers
and images of a different instance. -/
def absentDemoRuntime : Runtime :=
  { containers := [{ cid := "c9", cname := "other-v3", running := true }],
    images := [{ iid := "i9", reference := imageRef "other-v3" }],
    imageListErr := none }

/-- Fixture for C1: one workspace with one not-yet-ready version. -/
def monitorDemoStore : Store :=
  [("acme", { name := "acme", displayName := "acme", createdAt := 0,
              versions := [{ id := "v1", name := "v1", createdAt := 0,
                             bundlePath := "/b", supportBundleName := "b.zip",
                             ready := false }] })]

/-- The log stream of a simulator container that exits without ever
printing the readiness sentinel: two ordinary lines, then a clean EOF. -/
def sentinelFreeLog : List String :=
  ["level=info msg=loading bundle", "level=fatal msg=simulator exited"]

/-- Fixture for C2: a fresh workspace with no versions. -/
def c2Store0 : Store :=
  [("acme", { name := "acme", displayName := "acme", createdAt := 0, versions := [] })]

/-- State after the first upload. -/
def c2AfterUpload1 : Store × Except ApiError String :=
  handleUploadVersion c2Store0 "acme" "/b1" "b1.zip" 1

/-- State after the second upload. -/
def c2AfterUpload2 : Store × Except ApiError String :=
  handleUploadVersion c2AfterUpload1.1 "acme" "/b2" "b2.zip" 2

/-- State after deleting version `v2`. -/
def c2AfterDelete : Store × Except ApiError Unit :=
  handleDeleteVersion c2AfterUpload2.1 "acme" "v2"

/-- State after the upload that follows the deletion. -/
def c2AfterUpload3 : Store × Except ApiError String :=
  handleUploadVersion c2AfterDelete.1 "acme" "/b3" "b3.zip" 3

/-- Fixture store for the C4 witness: two workspaces with three versions in
total. -/
def c4Store : Store :=
  [("acme", { name := "acme", displayName := "acme", createdAt := 0,
              versions := [{ id := "v1", name := "v1", createdAt := 0,
                             bundlePath := "/b1", supportBundleName := "b1.zip",
                             ready := true },
                           { id := "v2", name := "v2", createdAt := 0,
                             bundlePath := "/b2", supportBundleName := "b2.zip",
                             ready := false }] }),
   ("beta", { name := "beta", displayName := "beta", createdAt := 0,
              versions := [{ id := "v1", name := "v1", createdAt := 0,
                             bundlePath := "/b3", supportBundleName := "b3.zip",
                             ready := true }] })]

/-- Docker oracle for the C4 witness: cleaning fails exactly for the
instance `acme-v2`. -/
def c4Docker : DockerOps :=
  { stopErr := fun i => if i = "acme-v2" then some "stop failed" else none,
    removeErr := fun _ => none,
    removeImagesErr := fun _ => none }

/-! ## General lemmas about the store -/

theorem storeFind_append_of_none {s : Store} {n : String} (w : Workspace)
    (h : storeFind s n = none) : storeFind (s ++ [(n, w)]) n = some w := by
  induction s with
  | nil => simp [storeFind]
  | cons p t ih =>
    by_cases hk : p.1 = n
    · simp [storeFind, hk] at h
    · simp only [storeFind, hk] at h ⊢
      simpa [List.cons_append, storeFind, hk] using ih h

theorem storeFind_mem {s : Store} {n : String} {w : Workspace}
    (h : storeFind s n = some w) : (n, w) ∈ s := by
  induction s with
  | nil => simp [storeFind] at h
  | cons p t ih =>
    obtain ⟨k, ws⟩ := p
    by_cases hk : k = n
    · subst hk
      simp only [storeFind, if_pos] at h
      cases h
      exact List.mem_cons_self _ _
    · simp only [storeFind, hk, if_neg, not_false_iff] at h
      exact List.mem_cons_of_mem _ (ih h)

theorem markReadyLoop_no_match {l : List Version} {versionID : String}
    (h : ∀ v ∈ l, ¬ v.id = versionID) : markReadyLoop l versionID = (l, false) := by
  induction l with
  | nil => rfl
  | cons v t ih =>
    have hv : ¬ v.id = versionID := h v (List.mem_cons_self v t)
    have ht := ih (fun u hu => h u (List.mem_cons_of_mem v hu))
    simp [markReadyLoop, hv, ht]

/-! ## C3: submission after pool shutdown -/

/-- C3: after `Shutdown` has completed, every subsequent
`SubmitBuildRequest` call returns the pool-closed error `"worker is
shutdown"` immediately: the pool state (in particular the job queue) is
unchanged by the whole sequence, and every call takes the early-return
path, never the enqueue-and-block path. -/
theorem submit_after_shutdown_rejected (w : ImageBuildWorker) (reqs : List BuildRequest) :
    submitAll (Shutdown w) reqs
      = (Shutdown w, reqs.map (fun _ => SubmitOutcome.rejectedShutdown)) ∧
    (Shutdown w).jobQueue = w.jobQueue ∧
    SubmitOutcome.submissionError .rejectedShutdown = some "worker is shutdown" := by
  refine ⟨?_, rfl, rfl⟩
  induction reqs with
  | nil => rfl
  | cons r t ih =>
    simp only [submitAll, SubmitBuildRequest, Shutdown, if_pos, List.map]
    simp [Shutdown] at ih
    simp [ih]

/-! ## C10: image-listing failures are swallowed by RemoveImages -/

/-- C10: when listing the images for an instance fails, `RemoveImages`
returns `nil` (success) without removing anything: the runtime state is
returned untouched and no error reaches the caller. -/
theorem removeImages_swallows_listing_failure (r : Runtime) (inst e : String)
    (h : r.imageListErr = some e) :
    RemoveImages r inst = (r, none) := by
  simp [RemoveImages, FindImages, h]

theorem removeImages_swallows_listing_failure_witness :
    failingListRuntime.imageListErr = some "daemon unavailable" ∧
    RemoveImages failingListRuntime "acme-v1" = (failingListRuntime, none) :=
  ⟨rfl, removeImages_swallows_listing_failure failingListRuntime "acme-v1"
    "daemon unavailable" rfl⟩

/-! ## C5: stop touches only the matching running containers -/

theorem stopMap_preserves_identity (inst : String) (l : List ContainerR) :
    (l.map (fun c => if c.cname = inst ∧ c.running then { c with running := false } else c)).map
        (fun c => (c.cid, c.cname))
      = l.map (fun c => (c.cid, c.cname)) := by
  induction l with
  | nil => rfl
  | cons c t ih =>
    by_cases h : c.cname = inst ∧ c.running
    · simp [h, ih]
    · simp [h, ih]

/-- C5: stopping an instance stops only the running containers matching the
instance name and changes nothing else — the metadata store (hence every
`ready` flag) is untouched, the image list and the image-listing state are
untouched, no container is removed (IDs and names are all preserved), every
non-matching or already-stopped container is kept exactly as it was, and
each matching running container is kept with only its state set to
stopped. -/
theorem stop_simulator_frame (s : Store) (r : Runtime) (wsName versionID : String) :
    (handleStopSimulator s r wsName versionID).1 = s ∧
    (handleStopSimulator s r wsName versionID).2.images = r.images ∧
    (handleStopSimulator s r wsName versionID).2.imageListErr = r.imageListErr ∧
    ((handleStopSimulator s r wsName versionID).2.containers.map (fun c => (c.cid, c.cname))
      = r.containers.map (fun c => (c.cid, c.cname))) ∧
    (∀ c ∈ r.containers, ¬ (c.cname = instanceName wsName versionID ∧ c.running) →
      c ∈ (handleStopSimulator s r wsName versionID).2.containers) ∧
    (∀ c ∈ r.containers, c.cname = instanceName wsName versionID → c.running →
      { c with running := false } ∈ (handleStopSimulator s r wsName versionID).2.containers) := by
  refine ⟨rfl, rfl, rfl, stopMap_preserves_identity _ _, ?_, ?_⟩
  · intro c hc hnot
    have heq : (fun c => if c.cname = instanceName wsName versionID ∧ c.running then
        { c with running := false } else c) c = c := by simp [hnot]
    exact heq ▸ List.mem_map_of_mem _ hc
  · intro c hc hname hrun
    have heq : (fun c => if c.cname = instanceName wsName versionID ∧ c.running then
        { c with running := false } else c) c = { c with running := false } := by
      simp [hname, hrun]
    exact heq ▸ List.mem_map_of_mem _ hc

theorem stop_simulator_frame_witness :
    (handleStopSimulator stopDemoStore stopDemoRuntime "acme" "v1").1 = stopDemoStore ∧
    (handleStopSimulator stopDemoStore stopDemoRuntime "acme" "v1").2.images
      = stopDemoRuntime.images ∧
    (handleStopSimulator stopDemoStore stopDemoRuntime "acme" "v1").2.imageListErr
      = stopDemoRuntime.imageListErr ∧
    ((handleStopSimulator stopDemoStore stopDemoRuntime "acme" "v1").2.containers.map
        (fun c => (c.cid, c.cname))
      = stopDemoRuntime.containers.map (fun c => (c.cid, c.cname))) ∧
    ContainerR.mk "c2" "beta-v2" true
      ∈ (handleStopSimulator stopDemoStore stopDemoRuntime "acme" "v1").2.containers ∧
    ContainerR.mk "c1" "acme-v1" false
      ∈ (handleStopSimulator stopDemoStore stopDemoRuntime "acme" "v1").2.containers := by
  obtain ⟨h1, h2, h3, h4, h5, h6⟩ :=
    stop_simulator_frame stopDemoStore stopDemoRuntime "acme" "v1"
  refine ⟨h1, h2, h3, h4, ?_, ?_⟩
  · exact h5 (ContainerR.mk "c2" "beta-v2" true) (by decide) (by decide)
  · exact h6 (ContainerR.mk "c1" "acme-v1" true) (by decide) (by decide) (by decide)

/-! ## C6: creating a duplicate workspace fails with Conflict, store kept -/

/-- C6: when a workspace named `n` is already stored, the store-level
`CreateWorkspace` fails with `os.ErrExist` (producing no new store state),
the handler leaves the whole store — the record for `n` and every other
binding — exactly as it was, and for any name the handler accepts (trimmed
nonempty) the failure surfaces as Conflict (409). -/
theorem create_duplicate_conflict (s : Store) (n : String) (now : Nat) (w : Workspace)
    (h : storeFind s n = some w) :
    CreateWorkspace s (mkNewWorkspace n now) = .error .errExist ∧
    (handleCreateWorkspace s n now).1 = s ∧
    (¬ goTrimSpace n = "" → handleCreateWorkspace s n now = (s, .error .conflict)) := by
  have hcw : CreateWorkspace s (mkNewWorkspace n now) = .error .errExist := by
    simp [CreateWorkspace, mkNewWorkspace, h]
  refine ⟨hcw, ?_, ?_⟩
  · by_cases ht : goTrimSpace n = ""
    · simp [handleCreateWorkspace, ht]
    · simp [handleCreateWorkspace, ht, hcw]
  · intro ht
    simp [handleCreateWorkspace, ht, hcw]

theorem create_duplicate_conflict_witness :
    CreateWorkspace demoStore (mkNewWorkspace "acme" 7) = .error .errExist ∧
    (handleCreateWorkspace demoStore "acme" 7).1 = demoStore ∧
    handleCreateWorkspace demoStore "acme" 7 = (demoStore, .error .conflict) := by
  obtain ⟨h1, h2, h3⟩ := create_duplicate_conflict demoStore "acme" 7
    { name := "acme", displayName := "acme", createdAt := 0,
      versions := [{ id := "v1", name := "v1", createdAt := 0,
                     bundlePath := "/b", supportBundleName := "b.zip",
                     ready := false }] } (by decide)
  exact ⟨h1, h2, h3 (by decide)⟩

/-! ## C9: create followed by get yields the fresh empty record -/

/-- C9: for any workspace name not present in the store, creating it (with
the record the handler builds) succeeds, and an immediate `GetWorkspace`
returns that record, whose name is the requested name and whose version
collection is empty. -/
theorem create_then_get (s : Store) (n : String) (now : Nat)
    (h : storeFind s n = none) :
    ∃ s', CreateWorkspace s (mkNewWorkspace n now) = .ok s' ∧
      GetWorkspace s' n = .ok (mkNewWorkspace n now) ∧
      (mkNewWorkspace n now).name = n ∧
      (mkNewWorkspace n now).versions = [] := by
  refine ⟨s ++ [(n, mkNewWorkspace n now)], ?_, ?_, rfl, rfl⟩
  · simp [CreateWorkspace, mkNewWorkspace, h]
  · simp [GetWorkspace, storeFind_append_of_none _ h]

theorem create_then_get_witness :
    storeFind demoStore "gamma" = none ∧
    (∃ s', CreateWorkspace demoStore (mkNewWorkspace "gamma" 9) = .ok s' ∧
      GetWorkspace s' "gamma" = .ok (mkNewWorkspace "gamma" 9) ∧
      (mkNewWorkspace "gamma" 9).name = "gamma" ∧
      (mkNewWorkspace "gamma" 9).versions = []) :=
  ⟨by decide, create_then_get demoStore "gamma" 9 (by decide)⟩

/-! ## C8: the monitor's ready-state update is a no-op on missing records -/

/-- C8: when the readiness monitor completes against a workspace name or a
version ID that is no longer in the store, `markVersionReady` writes
nothing: the store is returned unchanged, and — being a total function with
no error result, matching the Go func's empty return — nothing is
propagated to any caller. -/
theorem mark_ready_missing_noop (s : Store) (wsName versionID : String) :
    (storeFind s wsName = none → markVersionReady s wsName versionID = s) ∧
    (∀ ws, storeFind s wsName = some ws →
      (∀ v ∈ ws.versions, ¬ v.id = versionID) →
      markVersionReady s wsName versionID = s) := by
  constructor
  · intro h
    simp [markVersionReady, GetWorkspace, h]
  · intro ws hws hv
    simp [markVersionReady, GetWorkspace, hws, markReadyLoop_no_match hv]

theorem mark_ready_missing_noop_witness :
    (storeFind demoStore "gone" = none ∧
      markVersionReady demoStore "gone" "v1" = demoStore) ∧
    (storeFind demoStore "beta" =
        some { name := "beta", displayName := "beta", createdAt := 0, versions := [] } ∧
      markVersionReady demoStore "beta" "v9" = demoStore) := by
  obtain ⟨h1, h2⟩ := mark_ready_missing_noop demoStore "gone" "v1"
  obtain ⟨-, h4⟩ := mark_ready_missing_noop demoStore "beta" "v9"
  refine ⟨⟨by decide, h1 (by decide)⟩, ⟨by decide, ?_⟩⟩
  exact h4 { name := "beta", displayName := "beta", createdAt := 0, versions := [] }
    (by decide) (by decide)

/-! ## C7: cleanInstance on an absent instance is a successful no-op -/

theorem filter_true_of_forall {α : Type} (p : α → Bool) (l : List α)
    (h : ∀ a ∈ l, p a = true) : l.filter p = l := by
  induction l with
  | nil => rfl
  | cons a t ih =>
    simp only [List.filter, h a (List.mem_cons_self a t)]
    rw [ih (fun b hb => h b (List.mem_cons_of_mem a hb))]

theorem map_id_of_forall {α : Type} (f : α → α) (l : List α)
    (h : ∀ a ∈ l, f a = a) : l.map f = l := by
  induction l with
  | nil => rfl
  | cons a t ih =>
    simp only [List.map, h a (List.mem_cons_self a t)]
    rw [ih (fun b hb => h b (List.mem_cons_of_mem a hb))]

/-- C7: when no container (running or stopped) and no image matches the
instance name and the daemon's listing works, `CleanInstance` returns no
error and leaves the runtime exactly as it was; in particular running it a
second time gives the same outcome as running it once. -/
theorem cleanInstance_absent_noop (r : Runtime) (inst : String)
    (hc : ∀ c ∈ r.containers, ¬ c.cname = inst)
    (hi : ∀ i ∈ r.images, ¬ i.reference = imageRef inst)
    (he : r.imageListErr = none) :
    CleanInstance r inst = (r, none) ∧
    CleanInstance (CleanInstance r inst).1 inst = CleanInstance r inst := by
  have hstop : StopContainer r inst = r := by
    have : r.containers.map (fun c =>
        if c.cname = inst ∧ c.running then { c with running := false } else c)
        = r.containers :=
      map_id_of_forall _ _ (fun c hcm => by
        have := hc c hcm
        simp [this])
    simp [StopContainer, this]
  have hrem : RemoveContainer r inst = r := by
    unfold RemoveContainer
    rw [filter_true_of_forall _ _ (fun c hcm => by simp [hc c hcm])]
  have himg : RemoveImages r inst = (r, none) := by
    have hfi : r.images.filter (fun i => ¬ i.reference = imageRef inst)
        = r.images :=
      filter_true_of_forall _ _ (fun i him => by simp [hi i him])
    simp only [RemoveImages, FindImages, he]
    rw [hfi, ← he]
  have h1 : CleanInstance r inst = (r, none) := by
    simp [CleanInstance, hstop, hrem, himg]
  refine ⟨h1, ?_⟩
  rw [h1]
  exact h1

theorem cleanInstance_absent_noop_witness :
    CleanInstance absentDemoRuntime "acme-v1" = (absentDemoRuntime, none) ∧
    CleanInstance (CleanInstance absentDemoRuntime "acme-v1").1 "acme-v1"
      = CleanInstance absentDemoRuntime "acme-v1" :=
  cleanInstance_absent_noop absentDemoRuntime "acme-v1"
    (by decide) (by decide) rfl

/-! ## C1: the readiness monitor against a stream without the sentinel -/

/-- C1, evaluated at the failing input: no line of `sentinelFreeLog`
contains the readiness sentinel, and the version starts out not ready — yet
`WaitForLogMessage` returns success (`scanner.Err()` is `nil` at a clean
EOF), so the monitor calls `markVersionReady` and the `ready` flag ends up
`true` instead of remaining `false` as specified. -/
theorem monitor_marks_ready_without_sentinel :
    (∀ line ∈ sentinelFreeLog, strContains line readySentinel = false) ∧
    WaitForLogMessage sentinelFreeLog none readySentinel = none ∧
    versionReady monitorDemoStore "acme" "v1" = some false ∧
    versionReady (monitorReadyState monitorDemoStore "acme" "v1" sentinelFreeLog none)
        "acme" "v1" = some true := by
  decide

/-! ## C2: version IDs under interleaved deletion -/

/-- C2 counterexample: in the workspace `acme`, two uploads are assigned
`v1` and `v2`, `v2` is deleted, and the next upload is assigned `v2` again
(`len(ws.Versions)+1 = 2`): the numeric part of the newly assigned ID is
not strictly greater than that of every previously assigned ID, and the ID
of a deleted version is reassigned. -/
theorem versionID_reused_after_delete :
    c2AfterUpload1.2 = .ok "v1" ∧
    c2AfterUpload2.2 = .ok "v2" ∧
    c2AfterDelete.2 = .ok () ∧
    c2AfterUpload3.2 = .ok "v2" := by
  refine ⟨rfl, rfl, rfl, rfl⟩

/-! ### C2, amended: without deletions the assigned IDs strictly increase -/

theorem storeFind_replace_self {s : Store} {k : String} {w : Workspace} (w' : Workspace)
    (h : storeFind s k = some w) : storeFind (storeReplace s k w') k = some w' := by
  induction s with
  | nil => simp [storeFind] at h
  | cons p t ih =>
    obtain ⟨k0, w0⟩ := p
    by_cases hk : k0 = k
    · subst hk
      simp [storeReplace, storeFind]
    · simp only [storeFind, hk, if_neg, not_false_iff] at h
      simp [storeReplace, storeFind, hk, ih h]

theorem wfStore_replace {s : Store} {k : String} {w' : Workspace}
    (hwf : wfStore s) (hn : w'.name = k) : wfStore (storeReplace s k w') := by
  induction s with
  | nil =>
    intro p hp
    simp [storeReplace] at hp
  | cons p t ih =>
    intro q hq
    obtain ⟨k0, w0⟩ := p
    by_cases hk : k0 = k
    · subst hk
      simp only [storeReplace, if_pos] at hq
      rcases List.mem_cons.mp hq with hq | hq
      · subst hq
        simpa using hn
      · exact hwf q (List.mem_cons_of_mem _ hq)
    · simp only [storeReplace, hk, if_neg, not_false_iff] at hq
      rcases List.mem_cons.mp hq with hq | hq
      · subst hq
        exact hwf _ (List.mem_cons_self _ _)
      · exact ih (fun p hp => hwf p (List.mem_cons_of_mem _ hp)) q hq

theorem uploadsRun_ids (wsName : String) (n : Nat) :
    ∀ (s : Store) (ws : Workspace), wfStore s → storeFind s wsName = some ws →
      (uploadsRun wsName s n).2
        = (List.range n).map (fun i =>
            (ws.versions.length + i + 1, "v" ++ toString (ws.versions.length + i + 1))) := by
  induction n with
  | zero =>
    intro s ws _ _
    rfl
  | succ n ih =>
    intro s ws hwf h
    have hname : ws.name = wsName := hwf _ (storeFind_mem h)
    have hget : GetWorkspace s wsName = .ok ws := by simp [GetWorkspace, h]
    have hfindname : storeFind s ws.name = some ws := by rw [hname]; exact h
    have hupd : UpdateWorkspace s
        { ws with versions := ws.versions ++
            [mkUploadedVersion (uploadVersionID ws) "/b" "b.zip" 0] }
        = .ok (storeReplace s wsName
            { ws with versions := ws.versions ++
                [mkUploadedVersion (uploadVersionID ws) "/b" "b.zip" 0] }) := by
      show (match storeFind s ws.name with
        | none => Except.error StoreError.errNotExist
        | some _ => Except.ok (storeReplace s ws.name _)) = _
      rw [hfindname, hname]
    have hhandle : handleUploadVersion s wsName "/b" "b.zip" 0
        = (storeReplace s wsName
            { ws with versions := ws.versions ++
                [mkUploadedVersion (uploadVersionID ws) "/b" "b.zip" 0] },
           .ok (uploadVersionID ws)) := by
      simp [handleUploadVersion, hget, hupd]
    have hwf2 : wfStore (storeReplace s wsName
        { ws with versions := ws.versions ++
            [mkUploadedVersion (uploadVersionID ws) "/b" "b.zip" 0] }) :=
      wfStore_replace hwf hname
    have hfind2 : storeFind (storeReplace s wsName
        { ws with versions := ws.versions ++
            [mkUploadedVersion (uploadVersionID ws) "/b" "b.zip" 0] }) wsName
        = some { ws with versions := ws.versions ++
            [mkUploadedVersion (uploadVersionID ws) "/b" "b.zip" 0] } :=
      storeFind_replace_self _ h
    have htail := ih _ _ hwf2 hfind2
    show (match GetWorkspace s wsName with
      | .error _ => (s, [])
      | .ok ws' =>
        match handleUploadVersion s wsName "/b" "b.zip" 0 with
        | (s', .ok vid) =>
          let p := uploadsRun wsName s' n
          (p.1, (ws'.versions.length + 1, vid) :: p.2)
        | (_, .error _) => (s, [])).2 = _
    rw [hget, hhandle]
    simp only [htail, List.length_append, List.length_cons, List.length_nil]
    rw [List.range_succ_eq_map, List.map_cons, List.map_map]
    refine congrArg₂ _ ?_ ?_
    · simp [uploadVersionID]
    · refine List.map_congr_left ?_
      intro i _
      show (ws.versions.length + (0 + 1) + i + 1,
          "v" ++ toString (ws.versions.length + (0 + 1) + i + 1))
        = (ws.versions.length + (i + 1) + 1,
          "v" ++ toString (ws.versions.length + (i + 1) + 1))
      have harith : ws.versions.length + (0 + 1) + i + 1
          = ws.versions.length + (i + 1) + 1 := by omega
      rw [harith]

/-- C2, amended: every upload is assigned the ID `v<count+1>` where `count`
is the number of versions in the workspace at that moment, so for an
upload-only sequence (no interleaved deletion) the numeric parts of the
assigned IDs strictly increase and no ID is ever reassigned; once a version
other than the last is deleted, the next upload reuses an already-assigned
ID (see the counterexample). -/
theorem uploads_without_delete_ids_increase (s : Store) (wsName : String) (ws : Workspace)
    (hwf : wfStore s) (h : storeFind s wsName = some ws) (n : Nat) :
    (uploadsRun wsName s n).2
      = (List.range n).map (fun i =>
          (ws.versions.length + i + 1, "v" ++ toString (ws.versions.length + i + 1))) ∧
    ((uploadsRun wsName s n).2.map Prod.fst).Pairwise (· < ·) := by
  have hmain := uploadsRun_ids wsName n s ws hwf h
  refine ⟨hmain, ?_⟩
  rw [hmain, List.map_map]
  have hpair : (List.range n).Pairwise (· < ·) := List.pairwise_lt_range n
  exact hpair.map _ (fun a b hab => by
    show ws.versions.length + a + 1 < ws.versions.length + b + 1
    omega)

theorem uploads_without_delete_ids_increase_witness :
    wfStore c2Store0 ∧
    storeFind c2Store0 "acme"
      = some { name := "acme", displayName := "acme", createdAt := 0, versions := [] } ∧
    ((uploadsRun "acme" c2Store0 3).2
        = [(1, "v1"), (2, "v2"), (3, "v3")] ∧
      ((uploadsRun "acme" c2Store0 3).2.map Prod.fst).Pairwise (· < ·)) := by
  have hw : wfStore c2Store0 := by
    intro p hp
    simp [c2Store0] at hp
    simp [hp]
  refine ⟨hw, by decide, ?_⟩
  have := uploads_without_delete_ids_increase c2Store0 "acme"
    { name := "acme", displayName := "acme", createdAt := 0, versions := [] }
    hw (by decide) 3
  simpa using this

/-! ## C4: partial-failure tolerance and exact error counts of cleanup -/

theorem resetReadyLoop_ids (l : List Version) (versionID : String) :
    versionIDs (resetReadyLoop l versionID).1 = versionIDs l := by
  induction l with
  | nil => rfl
  | cons v t ih =>
    by_cases h : v.id = versionID ∧ v.ready
    · simp [resetReadyLoop, h, versionIDs]
    · simp only [resetReadyLoop, h, if_neg, not_false_iff]
      simp only [versionIDs, List.map] at ih ⊢
      rw [ih]

theorem shape_cons (p : String × Workspace) (t : Store) :
    shape (p :: t) = (p.1, p.2.name, versionIDs p.2.versions) :: shape t := rfl

theorem shape_replace {s : Store} {k : String} {w w' : Workspace}
    (h : storeFind s k = some w) (hn : w'.name = w.name)
    (hi : versionIDs w'.versions = versionIDs w.versions) :
    shape (storeReplace s k w') = shape s := by
  induction s with
  | nil => rfl
  | cons p t ih =>
    obtain ⟨k0, w0⟩ := p
    by_cases hk : k0 = k
    · subst hk
      simp only [storeFind, if_pos] at h
      cases h
      simp [storeReplace, shape, hn, hi]
    · simp only [storeFind, hk, if_neg, not_false_iff] at h
      have hrepl : storeReplace ((k0, w0) :: t) k w' = (k0, w0) :: storeReplace t k w' := by
        simp [storeReplace, hk]
      rw [hrepl, shape_cons, shape_cons, ih h]

theorem shape_find {s' s : Store} {k : String} {w : Workspace}
    (hs : shape s' = shape s) (h : storeFind s k = some w) :
    ∃ w', storeFind s' k = some w' ∧ w'.name = w.name ∧
      versionIDs w'.versions = versionIDs w.versions := by
  induction s generalizing s' with
  | nil => simp [storeFind] at h
  | cons p t ih =>
    obtain ⟨k0, w0⟩ := p
    cases s' with
    | nil => simp [shape] at hs
    | cons q t' =>
      obtain ⟨k1, w1⟩ := q
      simp only [shape, List.map, List.cons.injEq, Prod.mk.injEq] at hs
      obtain ⟨⟨hk01, hname, hids⟩, htail⟩ := hs
      by_cases hk : k0 = k
      · subst hk
        simp only [storeFind, if_pos] at h
        cases h
        refine ⟨w1, ?_, hname, hids⟩
        simp [storeFind, hk01]
      · simp only [storeFind, hk, if_neg, not_false_iff] at h
        obtain ⟨w', hw1, hw2, hw3⟩ := ih htail h
        refine ⟨w', ?_, hw2, hw3⟩
        rw [← hk01] at hk
        simp [storeFind, hk, hw1]

theorem wf_of_shape {s' s : Store} (hs : shape s' = shape s) (hwf : wfStore s) :
    wfStore s' := by
  induction s generalizing s' with
  | nil =>
    cases s' with
    | nil => intro p hp; simp at hp
    | cons q t' => simp [shape] at hs
  | cons p t ih =>
    cases s' with
    | nil => simp [shape] at hs
    | cons q t' =>
      simp only [shape, List.map, List.cons.injEq, Prod.mk.injEq] at hs
      obtain ⟨⟨hk, hname, _⟩, htail⟩ := hs
      intro x hx
      rcases List.mem_cons.mp hx with hx | hx
      · subst hx
        rw [hname, hk]
        exact hwf p (List.mem_cons_self _ _)
      · exact ih htail (fun r hr => hwf r (List.mem_cons_of_mem _ hr)) x hx

theorem reset_spec (s : Store) (wsName versionID : String) (ws : Workspace)
    (hwf : wfStore s) (h : storeFind s wsName = some ws) :
    shape (resetVersionReadyState s wsName versionID).1 = shape s ∧
    (resetVersionReadyState s wsName versionID).2 = none := by
  have hname : ws.name = wsName := hwf _ (storeFind_mem h)
  have hget : GetWorkspace s wsName = .ok ws := by simp [GetWorkspace, h]
  have hfindname : storeFind s ws.name = some ws := by rw [hname]; exact h
  have hids := resetReadyLoop_ids ws.versions versionID
  unfold resetVersionReadyState
  simp only [hget]
  cases hrl : resetReadyLoop ws.versions versionID with
  | mk vs' upd =>
    rw [hrl] at hids
    cases upd with
    | false => exact ⟨rfl, rfl⟩
    | true =>
      have hupd : UpdateWorkspace s { ws with versions := vs' }
          = .ok (storeReplace s ws.name { ws with versions := vs' }) := by
        show (match storeFind s ws.name with
          | none => Except.error StoreError.errNotExist
          | some _ => Except.ok (storeReplace s ws.name _)) = _
        rw [hfindname]
      simp only [if_true, hupd]
      exact ⟨shape_replace hfindname rfl hids, trivial⟩

theorem cleanVersion_spec (d : DockerOps) (s : Store) (wsName versionID : String)
    (ws : Workspace) (hwf : wfStore s) (h : storeFind s wsName = some ws) :
    shape (CleanVersion d s wsName versionID).1 = shape s ∧
    (CleanVersion d s wsName versionID).2.isSome
      = dockerCleanFails d (instanceName wsName versionID) := by
  unfold CleanVersion dockerCleanFails
  dsimp only
  cases hstop : d.stopErr (instanceName wsName versionID) with
  | some e => simp [hstop]
  | none =>
    cases hrm : d.removeErr (instanceName wsName versionID) with
    | some e => simp [hstop, hrm]
    | none =>
      cases hri : d.removeImagesErr (instanceName wsName versionID) with
      | some e => simp [hstop, hrm, hri]
      | none =>
        obtain ⟨h1, h2⟩ := reset_spec s wsName versionID ws hwf h
        cases hres : resetVersionReadyState s wsName versionID with
        | mk s2 e =>
          rw [hres] at h1 h2
          have he : e = none := h2
          subst he
          exact ⟨h1, by simp⟩

theorem formatCleanResults_length (results : List CleanVersionResult) :
    (FormatCleanResults results).length
      = results.countP (fun r => r.cleanError.isSome) := by
  induction results with
  | nil => rfl
  | cons r t ih =>
    cases he : r.cleanError with
    | none => simp [FormatCleanResults, List.countP_cons, he] at ih ⊢; exact ih
    | some e => simp [FormatCleanResults, List.countP_cons, he] at ih ⊢; exact ih

theorem map_instance_eq (nm : String) (l : List Version) :
    l.map (fun v => instanceName nm v.id)
      = (versionIDs l).map (fun i => instanceName nm i) := by
  simp [versionIDs, List.map_map]

theorem cleanVersionsLoop_spec (d : DockerOps) (wsName : String) (vl : List Version) :
    ∀ s : Store, wfStore s → (∃ ws, storeFind s wsName = some ws) →
      shape (cleanVersionsLoop d wsName s vl).1 = shape s ∧
      (cleanVersionsLoop d wsName s vl).2.map (fun r => r.versionID) = versionIDs vl ∧
      (cleanVersionsLoop d wsName s vl).2.countP (fun r => r.cleanError.isSome)
        = (vl.map (fun v => instanceName wsName v.id)).countP (dockerCleanFails d) := by
  induction vl with
  | nil =>
    intro s _ _
    exact ⟨rfl, rfl, rfl⟩
  | cons v t ih =>
    rintro s hwf ⟨ws, hfind⟩
    obtain ⟨h1, h2⟩ := cleanVersion_spec d s wsName v.id ws hwf hfind
    cases hcv : CleanVersion d s wsName v.id with
    | mk s1 e =>
      rw [hcv] at h1 h2
      have hwf1 : wfStore s1 := wf_of_shape h1 hwf
      have hfind1 : ∃ ws', storeFind s1 wsName = some ws' := by
        obtain ⟨w', hw', -, -⟩ := shape_find h1 hfind
        exact ⟨w', hw'⟩
      obtain ⟨g1, g2, g3⟩ := ih s1 hwf1 hfind1
      cases hloop : cleanVersionsLoop d wsName s1 t with
      | mk s2 res =>
        rw [hloop] at g1 g2 g3
        simp only [cleanVersionsLoop, hcv, hloop]
        refine ⟨g1.trans h1, ?_, ?_⟩
        · simpa [versionIDs] using g2
        · simp [List.countP_cons, g3, h2]

theorem cleanWorkspacesLoop_spec (d : DockerOps) (wsl : List Workspace) :
    ∀ s : Store, wfStore s →
      (∀ w ∈ wsl, ∃ x, storeFind s w.name = some x ∧
        versionIDs x.versions = versionIDs w.versions) →
      shape (cleanWorkspacesLoop d s wsl).1 = shape s ∧
      (cleanWorkspacesLoop d s wsl).2.map (fun r => r.versionID)
        = wsl.flatMap (fun w => versionIDs w.versions) ∧
      (cleanWorkspacesLoop d s wsl).2.countP (fun r => r.cleanError.isSome)
        = (wsl.flatMap (fun w => w.versions.map (fun v => instanceName w.name v.id))).countP
            (dockerCleanFails d) := by
  induction wsl with
  | nil =>
    intro s _ _
    exact ⟨rfl, rfl, rfl⟩
  | cons w rest ih =>
    intro s hwf hmem
    obtain ⟨x, hx, hids⟩ := hmem w (List.mem_cons_self _ _)
    have hget : GetWorkspace s w.name = .ok x := by simp [GetWorkspace, hx]
    have hcavw : CleanAllVersionsInWorkspace d s w.name
        = cleanVersionsLoop d w.name s x.versions := by
      unfold CleanAllVersionsInWorkspace
      rw [hget]
    obtain ⟨h1, h2, h3⟩ := cleanVersionsLoop_spec d w.name x.versions s hwf ⟨x, hx⟩
    cases hloop1 : cleanVersionsLoop d w.name s x.versions with
    | mk s1 res1 =>
      rw [hloop1] at h1 h2 h3
      have hwf1 : wfStore s1 := wf_of_shape h1 hwf
      have hmem1 : ∀ w' ∈ rest, ∃ x', storeFind s1 w'.name = some x' ∧
          versionIDs x'.versions = versionIDs w'.versions := by
        intro w' hw'
        obtain ⟨x', hx', hids'⟩ := hmem w' (List.mem_cons_of_mem _ hw')
        obtain ⟨x'', hx'', -, hids''⟩ := shape_find h1 hx'
        exact ⟨x'', hx'', hids''.trans hids'⟩
      obtain ⟨g1, g2, g3⟩ := ih s1 hwf1 hmem1
      cases hloop2 : cleanWorkspacesLoop d s1 rest with
      | mk s2 res2 =>
        rw [hloop2] at g1 g2 g3
        simp only [cleanWorkspacesLoop, hcavw, hloop1, hloop2]
        refine ⟨g1.trans h1, ?_, ?_⟩
        · rw [List.flatMap_cons, List.map_append, h2, g2, hids]
        · rw [List.flatMap_cons, List.countP_append, List.countP_append, h3, g3,
            map_instance_eq, hids, ← map_instance_eq]

theorem storeFind_self_of_nodup {s : Store} (hkeys : (s.map Prod.fst).Nodup) :
    ∀ p ∈ s, storeFind s p.1 = some p.2 := by
  induction s with
  | nil =>
    intro p hp
    simp at hp
  | cons q t ih =>
    intro p hp
    obtain ⟨k0, w0⟩ := q
    rw [List.map_cons] at hkeys
    obtain ⟨hhead, htail⟩ := List.nodup_cons.mp hkeys
    rcases List.mem_cons.mp hp with hp | hp
    · subst hp
      simp [storeFind]
    · have hk : ¬ k0 = p.1 := by
        intro hEq
        apply hhead
        rw [hEq]
        have hm : Prod.fst p ∈ List.map Prod.fst t := List.mem_map_of_mem Prod.fst hp
        exact hm
      simp only [storeFind, hk, if_neg, not_false_iff]
      exact ih htail p hp

/-- C4: `CleanAllWorkspaces` visits every version of every workspace (one
result entry per (workspace, version) instance, in order — a failing
instance never aborts cleaning of its siblings), and `FormatCleanResults`
reports exactly one error message per instance whose docker cleanup
failed. -/
theorem cleanAllWorkspaces_reports_each_failure (d : DockerOps) (s : Store)
    (hwf : wfStore s) (hkeys : (s.map Prod.fst).Nodup) :
    (CleanAllWorkspaces d s).2.map (fun r => r.versionID)
      = (ListWorkspaces s).flatMap (fun w => versionIDs w.versions) ∧
    (FormatCleanResults (CleanAllWorkspaces d s).2).length
      = ((ListWorkspaces s).flatMap
          (fun w => w.versions.map (fun v => instanceName w.name v.id))).countP
          (dockerCleanFails d) := by
  have hmem : ∀ w ∈ ListWorkspaces s, ∃ x, storeFind s w.name = some x ∧
      versionIDs x.versions = versionIDs w.versions := by
    intro w hw
    obtain ⟨p, hp, hpw⟩ := List.mem_map.mp hw
    subst hpw
    refine ⟨p.2, ?_, rfl⟩
    rw [hwf p hp]
    exact storeFind_self_of_nodup hkeys p hp
  obtain ⟨h1, h2, h3⟩ := cleanWorkspacesLoop_spec d (ListWorkspaces s) s hwf hmem
  unfold CleanAllWorkspaces
  refine ⟨h2, ?_⟩
  rw [formatCleanResults_length]
  exact h3

theorem cleanAllWorkspaces_reports_each_failure_witness :
    wfStore c4Store ∧
    ((CleanAllWorkspaces c4Docker c4Store).2.map (fun r => r.versionID)
        = (ListWorkspaces c4Store).flatMap (fun w => versionIDs w.versions) ∧
      (FormatCleanResults (CleanAllWorkspaces c4Docker c4Store).2).length
        = ((ListWorkspaces c4Store).flatMap
            (fun w => w.versions.map (fun v => instanceName w.name v.id))).countP
            (dockerCleanFails c4Docker)) := by
  have hw : wfStore c4Store := by
    intro p hp
    simp [c4Store] at hp
    rcases hp with hp | hp <;> simp [hp]
  exact ⟨hw, cleanAllWorkspaces_reports_each_failure c4Docker c4Store hw (by decide)⟩

end SimGui
